import Mathlib

/-!
Verification of the outfit-recommendation pipeline
(retrieval → assembly → feature-scoring → ranking).

The definitions below are a shallow embedding of the Python sources:
  * `src/data_loader.py`    — `CatalogLoader` (hybrid search, keyword fallback)
  * `src/data_loader_v2.py` — `CatalogLoaderV2._search_by_keyword`
  * `src/recommend.py`      — `assemble_outfits`, `featurize_combo_for_model`,
                              the heuristic ranker fallback
  * `src/train.py`          — `color_match_score`, `style_match_score`,
                              `season_match_score`, `featurize_combo`
  * `src/recommend_interface.py` — `OutfitRecommender._select_best_outfit`,
                              `recommend`, `_create_fallback_output`

Modelling conventions:
  * Python `str` is modelled as `List Char` (`Str` below); `str.lower()` is
    `List.map Char.toLower`, `a in b` (substring) is an explicit prefix scan.
  * Python `float` is modelled as the exact rational numbers `ℚ`.
  * Python's stable `list.sort(key=..., reverse=True)` is modelled by a stable
    insertion sort (`sortDescBy`).  NumPy's `argsort` (default introsort) fixes
    no order among equal values, so it is modelled relationally: `ArgsortSpec`
    admits every index permutation along which the similarities ascend, and the
    embedding search takes the chosen argsort output as an input.
  * Catalog items are `Item` records holding exactly the fields the pipeline
    reads; dictionary `get` with a default is modelled by default field values.
-/

/-- Python strings, modelled as their character lists. -/
abbrev Str := List Char

/-- Shorthand turning a Lean string literal into the `Str` model. -/
def strOf (s : String) : Str := s.toList

/-- Lower-casing, modelling Python `str.lower()`. -/
def lowerStr (s : Str) : Str := s.map Char.toLower

/-- Substring test, modelling Python `needle in haystack`. -/
def subStr (needle haystack : Str) : Bool :=
  (List.range (haystack.length + 1)).any fun i => needle.isPrefixOf (haystack.drop i)

/-- Accumulator-based whitespace tokenizer; `acc` holds the (reversed) current
token.  Used to model Python `str.split()` (no separator argument), which
splits on whitespace runs and never produces empty tokens. -/
def tokensAux : List Char → Str → List Str
  | [], acc => if acc = [] then [] else [acc.reverse]
  | c :: rest, acc =>
    if c.isWhitespace then
      (if acc = [] then tokensAux rest [] else acc.reverse :: tokensAux rest [])
    else tokensAux rest (c :: acc)

/-- Model of `query.lower().split()` from `_search_by_keyword`. -/
def tokenize (q : Str) : List Str := tokensAux (lowerStr q) []

/-- Catalog item, holding the fields read by the pipeline
(`data_loader.py` search fields plus the `recommend.py` scoring fields). -/
structure Item where
  item_id : Str := []
  title : Str := []
  description : Str := []
  color : Str := []
  material : Str := []
  style : Str := []
  role : Str := []
  season : Str := []
  popularity : ℚ := 0
deriving DecidableEq, Repr

instance : Inhabited Item := ⟨{}⟩

/-- Concatenated search text of an item, modelling the `text_to_search`
expression of `CatalogLoader._search_by_keyword` (title, description, color,
material and style, lower-cased and space-joined). -/
def textToSearch (it : Item) : Str :=
  lowerStr it.title ++ [' '] ++ lowerStr it.description ++ [' '] ++
  lowerStr it.color ++ [' '] ++ lowerStr it.material ++ [' '] ++ lowerStr it.style

/-- Number of query tokens occurring as substrings of `text`, modelling the
`for keyword in keywords: if keyword in text_to_search: score += 1` loop. -/
def matchCount (keywords : List Str) (text : Str) : Nat :=
  keywords.countP fun k => subStr k text

/-- Stable insertion step for descending sort: `a` (an earlier list element)
is placed before the first element whose key does not exceed `key a`, so
elements with equal keys keep their input order.  Models the behaviour of
Python's stable `list.sort(key=..., reverse=True)`. -/
def insertDescBy {α : Type} (key : α → ℚ) (a : α) : List α → List α
  | [] => [a]
  | b :: l => if key b ≤ key a then a :: b :: l else b :: insertDescBy key a l

/-- Stable descending insertion sort by a rational key. -/
def sortDescBy {α : Type} (key : α → ℚ) : List α → List α
  | [] => []
  | a :: l => insertDescBy key a (sortDescBy key l)

/-- Catalog-order list of keyword hits together with their catalog indices:
for every item whose raw match count is positive, the normalized score
`min(score / len(keywords), 1.0)` is recorded.  Models the scoring loop of
`CatalogLoader._search_by_keyword` (the index is the implicit position of the
item in `self.catalog`). -/
def keywordHitsIdx (catalog : List Item) (keywords : List Str) :
    List (Nat × Item × ℚ) :=
  (List.enumFrom 0 catalog).filterMap fun p =>
    if 0 < matchCount keywords (textToSearch p.2) then
      some (p.1, p.2,
        min ((matchCount keywords (textToSearch p.2) : ℚ) / (keywords.length : ℚ)) 1)
    else none

/-- Index-annotated model of `CatalogLoader._search_by_keyword`: score the
catalog, sort by score descending with Python's stable sort, truncate to
`top_k`. -/
def searchByKeywordIdx (catalog : List Item) (q : Str) (top_k : Nat) :
    List (Nat × Item × ℚ) :=
  (sortDescBy (fun p => p.2.2) (keywordHitsIdx catalog (tokenize q))).take top_k

/-- Catalog-order list of keyword hits as returned to callers (item, score).
Models the `results` list built by `CatalogLoader._search_by_keyword`. -/
def keywordHits (catalog : List Item) (keywords : List Str) : List (Item × ℚ) :=
  catalog.filterMap fun it =>
    if 0 < matchCount keywords (textToSearch it) then
      some (it,
        min ((matchCount keywords (textToSearch it) : ℚ) / (keywords.length : ℚ)) 1)
    else none

/-- Model of `CatalogLoader._search_by_keyword` (the keyword fallback path of
`search_by_text`): tokenize, score, stable-sort descending, truncate. -/
def searchByKeyword (catalog : List Item) (q : Str) (top_k : Nat) :
    List (Item × ℚ) :=
  (sortDescBy (fun p => p.2) (keywordHits catalog (tokenize q))).take top_k

/-- Specification of a valid output of `np.argsort(similarities)`
(ascending): some permutation of the indices `0 .. len-1` along which the
similarities are non-decreasing.  The default `argsort` kind is an unstable
introsort, so the order of equal values is left open and any permutation
satisfying this specification may be produced. -/
abbrev ArgsortSpec (sims : List ℚ) (idxs : List Nat) : Prop :=
  List.Perm idxs (List.range sims.length) ∧
  idxs.Pairwise fun i j => sims.getD i 0 ≤ sims.getD j 0

/-- Index-annotated model of the embedding path of
`CatalogLoader.search_by_text`.  The cosine similarities of the encoded query
against the catalog vectors are taken as an input list `sims`, and `idxs` is
the index order produced by `np.argsort(similarities)` (the encoder and
NumPy's sort are external collaborators; every `idxs` satisfying
`ArgsortSpec` is an admissible argsort output).  The code takes
`top_indices = np.argsort(similarities)[::-1][:top_k]` and keeps
`(idx, self.catalog[int(idx)], score)` for each index whose score clears the
threshold. -/
def searchByEmbeddingIdx (catalog : List Item) (sims : List ℚ)
    (idxs : List Nat) (top_k : Nat) (threshold : ℚ) : List (Nat × Item × ℚ) :=
  (idxs.reverse.take top_k).filterMap fun i =>
    if threshold ≤ sims.getD i 0 then
      (catalog.get? i).map fun it => (i, it, sims.getD i 0)
    else none

/-- Embedding path of `CatalogLoader.search_by_text` as returned to callers:
the `(self.catalog[int(idx)], score)` pairs built from the top indices. -/
def searchByEmbedding (catalog : List Item) (sims : List ℚ) (idxs : List Nat)
    (top_k : Nat) (threshold : ℚ) : List (Item × ℚ) :=
  (searchByEmbeddingIdx catalog sims idxs top_k threshold).map fun p =>
    (p.2.1, p.2.2)

/-- Catalog entry of `CatalogLoaderV2` (a value of `self.catalog`), holding
the metadata fields read by `CatalogLoaderV2._search_by_keyword`. -/
structure ItemV2 where
  complete_description : Str := []
  color_primary : Str := []
  material : Str := []
  style_aesthetic : Str := []
deriving DecidableEq, Repr

/-- Concatenated search text of `CatalogLoaderV2._search_by_keyword`
(description, primary color, material and style aesthetic, lower-cased). -/
def textToSearchV2 (it : ItemV2) : Str :=
  lowerStr it.complete_description ++ [' '] ++ lowerStr it.color_primary ++
  [' '] ++ lowerStr it.material ++ [' '] ++ lowerStr it.style_aesthetic

/-- Scoring loop of `CatalogLoaderV2._search_by_keyword`; the normalized
score is `min(score / len(keywords), 1.0) if keywords else 0.0`. -/
def keywordHitsV2 (catalog : List ItemV2) (keywords : List Str) :
    List (ItemV2 × ℚ) :=
  catalog.filterMap fun it =>
    if 0 < matchCount keywords (textToSearchV2 it) then
      some (it, if keywords = [] then 0
                else min ((matchCount keywords (textToSearchV2 it) : ℚ) / (keywords.length : ℚ)) 1)
    else none

/-- Model of `CatalogLoaderV2._search_by_keyword`. -/
def searchByKeywordV2 (catalog : List ItemV2) (q : Str) (top_k : Nat) :
    List (ItemV2 × ℚ) :=
  (sortDescBy (fun p => p.2) (keywordHitsV2 catalog (tokenize q))).take top_k

/-- Embedding-related state a `CatalogLoader` instance carries for its whole
lifetime.  The stored embedding matrix and the loaded encoder are each
modelled by their vector dimension (all the constructor inspects). -/
structure LoaderState where
  embeddings : Option Nat
  embeddingModel : Option Nat
deriving DecidableEq, Repr

/-- Embedding initialization of `CatalogLoader.__init__`, as a function of
what the environment provides: `embDim` is the dimension of the embedding
file if it loads (`None` on absence or load failure), `configuredDim` the
output dimension of the configured encoder if it loads, and `candidateDims`
the outcome of loading each entry of the hard-coded auto-detection list in
order.  The configured encoder is kept only when its dimension equals the
stored dimension; otherwise the first candidate model whose dimension
matches is auto-detected and kept.  No branch raises. -/
def initEmbeddingState (embDim : Option Nat) (configuredDim : Option Nat)
    (candidateDims : List (Option Nat)) : LoaderState :=
  match embDim with
  | none => { embeddings := none, embeddingModel := none }
  | some ed =>
    let primary : Option Nat :=
      match configuredDim with
      | some md => if md = ed then some md else none
      | none => none
    let model : Option Nat :=
      match primary with
      | some m => some m
      | none => (candidateDims.filterMap id).find? fun d => d = ed
    { embeddings := some ed, embeddingModel := model }

/-- Flag reported by `CatalogLoader.get_stats`: embeddings loaded AND a
compatible model present. -/
def hasEmbeddings (st : LoaderState) : Bool :=
  st.embeddings.isSome && st.embeddingModel.isSome

/-- Per-query dispatch of `CatalogLoader.search_by_text`: the embedding path
runs only when both the embedding matrix and a compatible model were kept at
construction time; otherwise every query falls back to keyword search. -/
def searchByTextDispatch (st : LoaderState) (catalog : List Item) (q : Str)
    (sims : List ℚ) (idxs : List Nat) (top_k : Nat) (threshold : ℚ) :
    List (Item × ℚ) :=
  if st.embeddings.isSome && st.embeddingModel.isSome then
    searchByEmbedding catalog sims idxs top_k threshold
  else searchByKeyword catalog q top_k

/-- Model of `assemble_outfits` from `recommend.py`: partition the candidate
list by role, cap each partition to its first 5 items, and emit the full
Cartesian product as `[t, b, s]` triples (tops outer, bottoms middle, shoes
inner). -/
def assemble_outfits (candidates : List Item) : List (List Item) :=
  let tops := candidates.filter fun c => c.role = strOf "top"
  let bottoms := candidates.filter fun c => c.role = strOf "bottom"
  let shoes := candidates.filter fun c => c.role = strOf "shoes"
  (tops.take 5).flatMap fun t =>
    (bottoms.take 5).flatMap fun b =>
      (shoes.take 5).map fun s => [t, b, s]

/-- Season inferred from the temperature, shared verbatim by
`featurize_combo_for_model` (recommend.py) and `season_match_score`
(train.py). -/
def seasonOfTemp (t : ℤ) : Str :=
  if t ≤ 10 then strOf "winter"
  else if t ≤ 18 then strOf "fall"
  else if t ≤ 24 then strOf "spring"
  else strOf "summer"

/-- Context fields read by `featurize_combo_for_model`:
`ctx['preferences']['styles']` and `ctx['weather']['temp_c']`. -/
structure Ctx where
  styles : List Str := []
  temp_c : ℤ := 20
deriving Repr

/-- Model of `featurize_combo_for_model` from `recommend.py`.  The five
features in order: duplicate-colour count, preferred-style ratio,
season-match ratio, average popularity, and a hard-coded `0.0` in the fifth
slot. -/
def featurize_combo_for_model (combo : List Item) (ctx : Ctx) : List ℚ :=
  let colors := combo.map Item.color
  let color_match : ℚ := (colors.length - colors.dedup.length : ℕ)
  let style_match : ℚ :=
    (combo.countP fun it => decide (it.style ∈ ctx.styles) : ℚ) /
      (combo.length : ℚ)
  let season := seasonOfTemp ctx.temp_c
  let season_match : ℚ :=
    (combo.countP fun it => it.season = season : ℚ) / (combo.length : ℚ)
  let avg_pop : ℚ := (combo.map Item.popularity).sum / (combo.length : ℚ)
  [color_match, style_match, season_match, avg_pop, 0]

/-- Heuristic ranker fallback of `recommend.py` (`recommend`, model absent):
`feats[1] * 0.5 + feats[2] * 0.3 + feats[0] * 0.2`. -/
def rankerFallbackScore (feats : List ℚ) : ℚ :=
  feats.getD 1 0 * 0.5 + feats.getD 2 0 * 0.3 + feats.getD 0 0 * 0.2

/-- Rational dot product of two vectors, `(a * b).sum` componentwise. -/
def dotQ (a b : List ℚ) : ℚ := (List.zipWith (fun x y => x * y) a b).sum

/-- Componentwise mean of a list of vectors, modelling
`np.mean(item_embs, axis=0)` in `featurize_combo` (train.py). -/
def vecMean (vs : List (List ℚ)) : List ℚ :=
  match vs with
  | [] => []
  | v :: rest =>
    (rest.foldl (fun acc w => List.zipWith (fun a b => a + b) acc w) v).map
      fun x => x / (vs.length : ℚ)

/-- Cosine similarity over the reals, modelling the external
`sklearn.metrics.pairwise.cosine_similarity` collaborator called by
`featurize_combo` (train.py): dot product divided by the product of the
Euclidean norms. -/
noncomputable def cosineSim (a b : List ℚ) : ℝ :=
  ((dotQ a b : ℚ) : ℝ) /
    (Real.sqrt ((dotQ a a : ℚ) : ℝ) * Real.sqrt ((dotQ b b : ℚ) : ℝ))

/-- Model of `color_match_score` (train.py): `len(colors) - len(set(colors))`. -/
def color_match_score (items : List Item) : ℚ :=
  ((items.map Item.color).length - (items.map Item.color).dedup.length : ℕ)

/-- Model of `style_match_score` (train.py):
`sum(...) / max(1, len(styles))`. -/
def style_match_score (items : List Item) (pref_styles : List Str) : ℚ :=
  (items.countP fun it => decide (it.style ∈ pref_styles) : ℚ) /
    (max 1 items.length : ℕ)

/-- Model of `season_match_score` (train.py):
`sum(1 for it in items if it["season"] == season) / len(items)`. -/
def season_match_score (items : List Item) (target_temp : ℤ) : ℚ :=
  (items.countP fun it => it.season = seasonOfTemp target_temp : ℚ) /
    (items.length : ℚ)

/-- Model of `featurize_combo` from `train.py`.  `cos` is the external
cosine-similarity collaborator; `embed` models `ctx_emb.get("embed")` and
`item_embs` the optional item-embedding argument.  The fifth feature
(`ctx_item_sim`) is the cosine similarity of the mean item embedding against
the context embedding when both are provided, and `0.0` otherwise. -/
def featurize_combo (cos : List ℚ → List ℚ → ℚ) (combo : List Item)
    (styles : List Str) (temp_c : ℤ) (embed : Option (List ℚ))
    (item_embs : Option (List (List ℚ))) : List ℚ :=
  let ctx_item_sim : ℚ :=
    match item_embs, embed with
    | some embs, some ce => cos (vecMean embs) ce
    | _, _ => 0
  [color_match_score combo,
   style_match_score combo styles,
   season_match_score combo temp_c,
   (combo.map Item.popularity).sum / (combo.length : ℚ),
   ctx_item_sim]

/-- User-context fields read by `OutfitRecommender` (`user_profile`,
`weather` and `occasion` sub-dictionaries, with the defaults the code passes
to `dict.get`). -/
structure UIContext where
  color_preferences : List Str := []
  style_preferences : List Str := []
  personal_color : Str := []
  body_type : Str := []
  temperature_c : ℤ := 20
  condition : Str := []
  occasion_type : Str := []
  location : Str := []
  formality : Str := []
deriving Repr

/-- Model of `OutfitRecommender._select_best_outfit`: start from the first
candidate, boost every candidate's retrieval score by `0.2` for a colour
preference match and `0.2` for a style preference match, keep the best, and
clamp the final score with `min(best_score, 1.0)`. -/
def select_best_outfit (ctx : UIContext) (candidates : List (Item × ℚ)) :
    Item × ℚ :=
  match candidates with
  | [] => ({}, 0)
  | first :: _ =>
    let step := fun (best : Item × ℚ) (c : Item × ℚ) =>
      let boosted := c.2 +
        (if c.1.color ∈ ctx.color_preferences then (0.2 : ℚ) else 0) +
        (if c.1.style ∈ ctx.style_preferences then (0.2 : ℚ) else 0)
      if best.2 < boosted then (c.1, boosted) else best
    let r := candidates.foldl step first
    (r.1, min r.2 1)

/-- Output record of the recommendation pipeline
(`RecommendationOutput` in `recommend_interface.py`). -/
structure RecommendationOutput where
  selected_outfit_filename : Str
  selected_outfit_id : Str
  reasoning : Str
  vton_prompt : Str
  negative_prompt : Str := []
  confidence_score : ℚ := 0
  fashion_notes : Str := []
  generated_at : Str := []
deriving DecidableEq, Repr

/-- Model of `OutfitRecommender._extract_filename`: the digits after the last
underscore of the item id, suffixed with `.jpg`. -/
def extract_filename (it : Item) : Str :=
  if '_' ∈ it.item_id then
    (((it.item_id.splitOn '_').getLast? ).getD []) ++ strOf ".jpg"
  else it.item_id ++ strOf ".jpg"

/-- Model of `OutfitRecommender._create_fallback_output`; `now` stands for
`datetime.now().isoformat()`. -/
def create_fallback_output (now : Str) : RecommendationOutput :=
  { selected_outfit_filename := strOf "fallback.jpg"
    selected_outfit_id := strOf "fallback"
    reasoning := strOf "無法根據您的偏好找到合適的服裝。請稍後重試或聯絡客服。"
    vton_prompt := strOf "A professional fashion model in neutral elegance, office lighting"
    negative_prompt := strOf "ugly, distorted"
    confidence_score := 0
    fashion_notes := strOf "推薦服務暫時不可用"
    generated_at := now }

/-- Steps 2–6 of `OutfitRecommender.recommend`, as a function of the
retrieved candidate list (step 2's search result): an empty retrieval yields
the fallback output, otherwise the best candidate is selected and packaged.
The reasoning, VTON-prompt and fashion-note collaborators are passed in as
text-producing functions (they decorate the output and never affect the
selection). -/
def recommend_pipeline (reasonOf : UIContext → Item → Str)
    (vtonOf : UIContext → Item → Str × Str) (notesOf : UIContext → Item → Str)
    (ctx : UIContext) (candidates : List (Item × ℚ)) (now : Str) :
    RecommendationOutput :=
  match candidates with
  | [] => create_fallback_output now
  | _ :: _ =>
    let sel := select_best_outfit ctx candidates
    let vton := vtonOf ctx sel.1
    { selected_outfit_filename := extract_filename sel.1
      selected_outfit_id := sel.1.item_id
      reasoning := reasonOf ctx sel.1
      vton_prompt := vton.1
      negative_prompt := vton.2
      confidence_score := sel.2
      fashion_notes := notesOf ctx sel.1
      generated_at := now }

/-- Membership in a descending insertion step. -/
theorem mem_insertDescBy {α : Type} (key : α → ℚ) (a x : α) (l : List α) :
    x ∈ insertDescBy key a l ↔ x = a ∨ x ∈ l := by
  induction l with
  | nil => simp [insertDescBy]
  | cons b l ih =>
    rw [insertDescBy]
    split
    · simp only [List.mem_cons]
    · simp only [List.mem_cons, ih]
      tauto

/-- Membership is preserved by the stable descending sort. -/
theorem mem_sortDescBy {α : Type} (key : α → ℚ) (x : α) (l : List α) :
    x ∈ sortDescBy key l ↔ x ∈ l := by
  induction l with
  | nil => simp [sortDescBy]
  | cons a l ih =>
    rw [sortDescBy, mem_insertDescBy]
    simp only [List.mem_cons, ih]

/-- Inserting an element with minimal position into a descending-sorted,
position-stable list keeps the list descending-sorted and position-stable:
every later element either has a strictly smaller key or an equal key and a
larger position. -/
theorem pairwise_insertDescBy {α : Type} (key : α → ℚ) (pos : α → Nat) (a : α)
    (l : List α)
    (hl : l.Pairwise fun u v => key v < key u ∨ (key u = key v ∧ pos u < pos v))
    (ha : ∀ b ∈ l, pos a < pos b) :
    (insertDescBy key a l).Pairwise
      fun u v => key v < key u ∨ (key u = key v ∧ pos u < pos v) := by
  induction l with
  | nil => simp [insertDescBy]
  | cons b l ih =>
    obtain ⟨hbl, hl'⟩ := List.pairwise_cons.mp hl
    rw [insertDescBy]
    split
    case isTrue hba =>
      refine List.Pairwise.cons ?_ hl
      intro c hc
      have hcb : key c ≤ key b := by
        rcases List.mem_cons.mp hc with rfl | hc
        · exact le_refl _
        · rcases hbl c hc with h | ⟨h, _⟩
          · exact le_of_lt h
          · exact le_of_eq h.symm
      rcases lt_or_eq_of_le (le_trans hcb hba) with h | h
      · exact Or.inl h
      · exact Or.inr ⟨h.symm, ha c hc⟩
    case isFalse hba =>
      have hab : key a < key b := not_le.mp hba
      refine List.Pairwise.cons ?_
        (ih hl' fun c hc => ha c (List.mem_cons_of_mem _ hc))
      intro c hc
      rcases (mem_insertDescBy key a c l).mp hc with rfl | hc
      · exact Or.inl hab
      · exact hbl c hc

/-- The stable descending sort of a list whose positions are strictly
increasing: keys descend, and equal keys keep increasing positions. -/
theorem pairwise_sortDescBy {α : Type} (key : α → ℚ) (pos : α → Nat)
    (l : List α) (h : l.Pairwise fun u v => pos u < pos v) :
    (sortDescBy key l).Pairwise
      fun u v => key v < key u ∨ (key u = key v ∧ pos u < pos v) := by
  induction l with
  | nil => simp [sortDescBy]
  | cons a l ih =>
    obtain ⟨ha, hl⟩ := List.pairwise_cons.mp h
    rw [sortDescBy]
    exact pairwise_insertDescBy key pos a _ (ih hl)
      fun b hb => ha b ((mem_sortDescBy key b l).mp hb)

/-- Elements of `List.enumFrom n l` carry indices at least `n`. -/
theorem le_fst_of_mem_enumFrom {α : Type} {p : Nat × α} :
    ∀ {m : Nat} {l : List α}, p ∈ List.enumFrom m l → m ≤ p.1 := by
  intro m l
  induction l generalizing m with
  | nil => simp
  | cons a l ih =>
    intro hp
    rcases List.mem_cons.mp hp with rfl | hp
    · exact le_refl _
    · exact le_trans (Nat.le_succ m) (ih hp)

/-- The indices of `List.enumFrom` are strictly increasing. -/
theorem pairwise_enumFrom {α : Type} (n : Nat) (l : List α) :
    (List.enumFrom n l).Pairwise fun u v => u.1 < v.1 := by
  induction l generalizing n with
  | nil => simp
  | cons a l ih =>
    refine List.Pairwise.cons ?_ (ih (n + 1))
    intro p hp
    exact lt_of_lt_of_le (Nat.lt_succ_self n) (le_fst_of_mem_enumFrom hp)

/-- Transport of pairwiseness through `filterMap`. -/
theorem pairwise_filterMap_of {α β : Type} (f : α → Option β)
    {R : α → α → Prop} {S : β → β → Prop}
    (hf : ∀ a b x y, R a b → f a = some x → f b = some y → S x y) :
    ∀ l : List α, l.Pairwise R → (l.filterMap f).Pairwise S := by
  intro l hl
  induction hl with
  | nil => simp
  | @cons a l ha _ ih =>
    rw [List.filterMap_cons]
    cases h : f a with
    | none => exact ih
    | some x =>
      refine List.Pairwise.cons ?_ ih
      intro y hy
      obtain ⟨b, hb, hfb⟩ := List.mem_filterMap.mp hy
      exact hf a b x y (ha b hb) h hfb

/-- Mapping commutes with the descending insertion step when the keys agree. -/
theorem insertDescBy_map {α β : Type} (key : β → ℚ) (keyA : α → ℚ) (f : α → β)
    (hk : ∀ x, key (f x) = keyA x) (a : α) (l : List α) :
    insertDescBy key (f a) (l.map f) = (insertDescBy keyA a l).map f := by
  induction l with
  | nil => simp [insertDescBy]
  | cons b l ih =>
    rw [List.map_cons, insertDescBy, insertDescBy]
    simp only [hk]
    split
    · simp
    · rw [List.map_cons, ih]

/-- Mapping commutes with the stable descending sort when the keys agree. -/
theorem sortDescBy_map {α β : Type} (key : β → ℚ) (keyA : α → ℚ) (f : α → β)
    (hk : ∀ x, key (f x) = keyA x) (l : List α) :
    sortDescBy key (l.map f) = (sortDescBy keyA l).map f := by
  induction l with
  | nil => simp [sortDescBy]
  | cons a l ih =>
    rw [List.map_cons, sortDescBy, sortDescBy, ih,
      insertDescBy_map key keyA f hk]

/-- Dropping the index annotation from `keywordHitsIdx` yields `keywordHits`. -/
theorem keywordHitsIdx_strip (catalog : List Item) (keywords : List Str) :
    (keywordHitsIdx catalog keywords).map (fun p => (p.2.1, p.2.2)) =
      keywordHits catalog keywords := by
  suffices h : ∀ (n : Nat) (cat : List Item),
      ((List.enumFrom n cat).filterMap fun p =>
        if 0 < matchCount keywords (textToSearch p.2) then
          some (p.1, p.2,
            min ((matchCount keywords (textToSearch p.2) : ℚ) /
              (keywords.length : ℚ)) 1)
        else none).map (fun p => (p.2.1, p.2.2)) = keywordHits cat keywords by
    exact h 0 catalog
  intro n cat
  induction cat generalizing n with
  | nil => simp [keywordHits]
  | cons it rest ih =>
    have hcons : List.enumFrom n (it :: rest) =
        (n, it) :: List.enumFrom (n + 1) rest := rfl
    rw [hcons, List.filterMap_cons]
    unfold keywordHits
    rw [List.filterMap_cons]
    by_cases h : 0 < matchCount keywords (textToSearch it)
    · rw [if_pos h, if_pos h, List.map_cons, ih]
      rfl
    · rw [if_neg h, if_neg h, ih]
      rfl

/-- The keyword search result is the index-annotated keyword search with the
indices dropped. -/
theorem searchByKeyword_strip (catalog : List Item) (q : Str) (k : Nat) :
    searchByKeyword catalog q k =
      (searchByKeywordIdx catalog q k).map fun p => (p.2.1, p.2.2) := by
  unfold searchByKeyword searchByKeywordIdx
  rw [List.map_take,
    ← sortDescBy_map (fun p : Item × ℚ => p.2) (fun p : Nat × Item × ℚ => p.2.2)
      (fun p : Nat × Item × ℚ => (p.2.1, p.2.2)) (fun x => rfl),
    keywordHitsIdx_strip]

/-- Scores of the keyword hit list descend and ties keep catalog order. -/
theorem pairwise_searchByKeywordIdx (catalog : List Item) (q : Str) (k : Nat) :
    (searchByKeywordIdx catalog q k).Pairwise
      fun u v => v.2.2 < u.2.2 ∨ (u.2.2 = v.2.2 ∧ u.1 < v.1) := by
  have h2 : (keywordHitsIdx catalog (tokenize q)).Pairwise
      fun u v => u.1 < v.1 := by
    unfold keywordHitsIdx
    refine pairwise_filterMap_of _ ?_ _ (pairwise_enumFrom 0 catalog)
    intro a b x y hab hxa hyb
    split at hxa
    · split at hyb
      · cases hxa
        cases hyb
        simpa using hab
      · cases hyb
    · cases hxa
  have h3 := pairwise_sortDescBy (fun p : Nat × Item × ℚ => p.2.2)
    (fun p : Nat × Item × ℚ => p.1) _ h2
  exact h3.sublist (List.take_sublist _ _)

/-- For every index order along which the similarities ascend (every valid
argsort output), the embedding search result is sorted by score descending.
No tie order is stated: the unstable argsort guarantees none. -/
theorem pairwise_searchByEmbeddingIdx (catalog : List Item) (sims : List ℚ)
    (idxs : List Nat) (k : Nat) (thr : ℚ)
    (h : idxs.Pairwise fun i j => sims.getD i 0 ≤ sims.getD j 0) :
    (searchByEmbeddingIdx catalog sims idxs k thr).Pairwise
      fun u v => v.2.2 ≤ u.2.2 := by
  have h1 : idxs.reverse.Pairwise
      (fun i j => sims.getD j 0 ≤ sims.getD i 0) :=
    List.pairwise_reverse.mpr h
  have h2 := h1.sublist (List.take_sublist k _)
  unfold searchByEmbeddingIdx
  refine pairwise_filterMap_of _ ?_ _ h2
  intro a b x y hab hxa hyb
  split at hxa
  · split at hyb
    · obtain ⟨ita, hga, hxa'⟩ := Option.map_eq_some'.mp hxa
      obtain ⟨itb, hgb, hyb'⟩ := Option.map_eq_some'.mp hyb
      subst hxa'
      subst hyb'
      exact hab
    · cases hyb
  · cases hxa

/-- First catalog item used in concrete evaluations (catalog position 0). -/
def itemA : Item := { item_id := strOf "outfit_0" }

/-- Second catalog item used in concrete evaluations (catalog position 1). -/
def itemB : Item := { item_id := strOf "outfit_1" }

/-- C1 (amended).  In both search paths of `search_by_text` the result list
is sorted by score descending.  In the keyword fallback path, results with
equal scores appear in the same relative order as their items' catalog
insertion order (Python's sort is stable).  In the embedding path no tie
order is guaranteed: the index order comes from NumPy's unstable default
`argsort`, which the code then reverses, so descending sortedness is proven
for every index order satisfying `ArgsortSpec`, and the claimed stable
insertion-order tie-break fails (see the counterexample).  The
index-annotated searches record each returned item's catalog position; the
map equations state that they are the actual searches with the positions
dropped. -/
theorem C1_search_sort_order :
    (∀ (catalog : List Item) (q : Str) (k : Nat),
      (searchByKeywordIdx catalog q k).Pairwise
        (fun u v => v.2.2 < u.2.2 ∨ (u.2.2 = v.2.2 ∧ u.1 < v.1)) ∧
      searchByKeyword catalog q k =
        (searchByKeywordIdx catalog q k).map (fun p => (p.2.1, p.2.2))) ∧
    (∀ (catalog : List Item) (sims : List ℚ) (idxs : List Nat) (k : Nat)
      (thr : ℚ), ArgsortSpec sims idxs →
      (searchByEmbeddingIdx catalog sims idxs k thr).Pairwise
        (fun u v => v.2.2 ≤ u.2.2) ∧
      searchByEmbedding catalog sims idxs k thr =
        (searchByEmbeddingIdx catalog sims idxs k thr).map
          (fun p => (p.2.1, p.2.2))) :=
  ⟨fun catalog q k =>
    ⟨pairwise_searchByKeywordIdx catalog q k, searchByKeyword_strip catalog q k⟩,
   fun catalog sims idxs k thr hspec =>
    ⟨pairwise_searchByEmbeddingIdx catalog sims idxs k thr hspec.2, rfl⟩⟩

/-- C1 witness: `[0, 1]` is a valid argsort output of the similarity array
`[1, 1]`, and the embedding search result built from it on the catalog
`[itemA, itemB]` is sorted by score descending. -/
theorem C1_witness :
    ArgsortSpec [1, 1] [0, 1] ∧
    (searchByEmbeddingIdx [itemA, itemB] [1, 1] [0, 1] 2 0).Pairwise
      (fun u v => v.2.2 ≤ u.2.2) :=
  ⟨by decide,
   (C1_search_sort_order.2 [itemA, itemB] [1, 1] [0, 1] 2 0 (by decide)).1⟩

/-- C1 (counterexample).  `[0, 1]` is a valid argsort output of the
similarity array `[1, 1]` — and it is the one NumPy produces on this input,
since below its 16-element cutoff introsort runs a stable insertion sort.
With it, the embedding path on the catalog `[itemA, itemB]` returns `itemB`
(catalog position 1) *before* `itemA` (catalog position 0) although their
scores tie, so the claimed stable tie-break on catalog insertion order fails
in the embedding path. -/
theorem C1_counterexample :
    ArgsortSpec [1, 1] [0, 1] ∧
    searchByEmbedding [itemA, itemB] [1, 1] [0, 1] 2 0 =
      [(itemB, 1), (itemA, 1)] ∧
    ¬ (searchByEmbeddingIdx [itemA, itemB] [1, 1] [0, 1] 2 0).Pairwise
        (fun u v => v.2.2 ≤ u.2.2 ∧ (u.2.2 = v.2.2 → u.1 < v.1)) ∧
    itemA ≠ itemB := by
  refine ⟨?_, ?_, ?_, ?_⟩ <;> decide

/-- Length of a `flatMap` whose pieces all have the same length. -/
theorem length_flatMap_const {α β : Type} (l : List α) (f : α → List β) (c : Nat)
    (h : ∀ a ∈ l, (f a).length = c) : (l.flatMap f).length = l.length * c := by
  induction l with
  | nil => simp
  | cons a l ih =>
    rw [List.flatMap_cons, List.length_append, h a (by simp),
      ih fun b hb => h b (by simp [hb]), List.length_cons]
    ring

/-- Length of the capped Cartesian product built by `assemble_outfits`. -/
theorem assemble_product_length (ts bs ss : List Item) :
    ((ts.take 5).flatMap fun t => (bs.take 5).flatMap fun b =>
      (ss.take 5).map fun s => [t, b, s]).length =
    min ts.length 5 * (min bs.length 5 * min ss.length 5) := by
  rw [length_flatMap_const _ _ (min bs.length 5 * min ss.length 5)
      (fun t _ => by
        rw [length_flatMap_const _ _ (min ss.length 5)
            (fun b _ => by rw [List.length_map, List.length_take, Nat.min_comm]),
          List.length_take, Nat.min_comm]),
    List.length_take, Nat.min_comm]

/-- C2: `assemble_outfits` produces exactly
`min(T,5) * min(B,5) * min(S,5)` outfit candidates, where `T`, `B`, `S` are
the sizes of the role partitions and `5` is the cap hard-coded by
`tops[:5]`/`bottoms[:5]`/`shoes[:5]`; in particular an empty mandatory
partition yields the empty list (not an error). -/
theorem C2_assemble_outfit_count :
    ∀ candidates : List Item,
      (assemble_outfits candidates).length =
        min ((candidates.filter fun c => c.role = strOf "top").length) 5 *
          (min ((candidates.filter fun c => c.role = strOf "bottom").length) 5 *
            min ((candidates.filter fun c => c.role = strOf "shoes").length) 5) ∧
      (((candidates.filter fun c => c.role = strOf "top").length = 0 ∨
        (candidates.filter fun c => c.role = strOf "bottom").length = 0 ∨
        (candidates.filter fun c => c.role = strOf "shoes").length = 0) →
        assemble_outfits candidates = []) := by
  intro candidates
  have hA : (assemble_outfits candidates).length =
      min ((candidates.filter fun c => c.role = strOf "top").length) 5 *
        (min ((candidates.filter fun c => c.role = strOf "bottom").length) 5 *
          min ((candidates.filter fun c => c.role = strOf "shoes").length) 5) :=
    assemble_product_length _ _ _
  refine ⟨hA, fun h => ?_⟩
  apply List.length_eq_zero.mp
  rw [hA]
  rcases h with h | h | h <;> simp [h]

/-- C2 witness: a candidate list with a top but no bottoms and no shoes
assembles to the empty outfit list. -/
theorem C2_witness : assemble_outfits [{ role := strOf "top" }] = [] :=
  (C2_assemble_outfit_count [{ role := strOf "top" }]).2 (Or.inr (Or.inl (by decide)))

/-- C3: with no trained model, the ranker's score of a feature vector
`[color_match, style_match, season_match, avg_pop, ctx_item_sim]` is exactly
`0.5 * style_match + 0.3 * season_match + 0.2 * color_match`; the example
vector `[0, 1, 1, _, _]` scores `0.8`; and the `color_match` slot produced by
`featurize_combo_for_model` is the raw (unnormalized) duplicate-colour
count. -/
theorem C3_ranker_fallback_formula (c s se p x : ℚ) :
    rankerFallbackScore [c, s, se, p, x] = 0.5 * s + 0.3 * se + 0.2 * c ∧
    rankerFallbackScore [0, 1, 1, p, x] = 0.8 ∧
    ∀ (combo : List Item) (ctx : Ctx),
      (featurize_combo_for_model combo ctx).get? 0 =
        some (((combo.map Item.color).length -
          (combo.map Item.color).dedup.length : ℕ) : ℚ) := by
  refine ⟨?_, ?_, fun combo ctx => rfl⟩
  · simp only [rankerFallbackScore, List.getD]
    simp
    ring
  · simp only [rankerFallbackScore, List.getD]
    simp
    norm_num

/-- C4: the season inferred from the temperature by
`featurize_combo_for_model` and `season_match_score` is winter for `t ≤ 10`,
fall for `10 < t ≤ 18`, spring for `18 < t ≤ 24` and summer for `24 < t`;
in particular `t = 10` yields winter, `t = 11` fall and `t = 25` summer. -/
theorem C4_season_thresholds :
    (∀ t : ℤ,
      (t ≤ 10 → seasonOfTemp t = strOf "winter") ∧
      (10 < t → t ≤ 18 → seasonOfTemp t = strOf "fall") ∧
      (18 < t → t ≤ 24 → seasonOfTemp t = strOf "spring") ∧
      (24 < t → seasonOfTemp t = strOf "summer")) ∧
    seasonOfTemp 10 = strOf "winter" ∧ seasonOfTemp 11 = strOf "fall" ∧
    seasonOfTemp 25 = strOf "summer" := by
  refine ⟨fun t => ⟨?_, ?_, ?_, ?_⟩, by decide, by decide, by decide⟩
  · intro h
    simp [seasonOfTemp, h]
  · intro h1 h2
    unfold seasonOfTemp
    rw [if_neg (by omega), if_pos h2]
  · intro h1 h2
    unfold seasonOfTemp
    rw [if_neg (by omega), if_neg (by omega), if_pos h2]
  · intro h
    unfold seasonOfTemp
    rw [if_neg (by omega), if_neg (by omega), if_neg (by omega)]

/-- C4 witness: the thresholds evaluated at the concrete temperature 5 °C. -/
theorem C4_witness : (5 : ℤ) ≤ 10 ∧ seasonOfTemp 5 = strOf "winter" :=
  ⟨by decide, (C4_season_thresholds.1 5).1 (by decide)⟩

/-- C5 (amended): when the configured encoder's dimension differs from the
stored embedding dimension AND no model of the hard-coded auto-detection list
loads with a matching dimension, construction keeps no embedding model (and
does not raise — the model is total), `has_embeddings` reports `false`, and
every subsequent `search_by_text` call takes the keyword fallback path (the
decision is a fixed field of the state, never re-attempted per query). -/
theorem C5_dimension_mismatch_disables (ed md : Nat) (cands : List (Option Nat))
    (hmd : md ≠ ed) (hc : ∀ d ∈ cands.filterMap id, d ≠ ed) :
    (initEmbeddingState (some ed) (some md) cands).embeddingModel = none ∧
    hasEmbeddings (initEmbeddingState (some ed) (some md) cands) = false ∧
    ∀ (catalog : List Item) (q : Str) (sims : List ℚ) (idxs : List Nat)
      (k : Nat) (thr : ℚ),
      searchByTextDispatch (initEmbeddingState (some ed) (some md) cands)
        catalog q sims idxs k thr = searchByKeyword catalog q k := by
  have hmodel :
      (initEmbeddingState (some ed) (some md) cands).embeddingModel = none := by
    simp only [initEmbeddingState]
    rw [if_neg hmd]
    cases hfind : (cands.filterMap id).find? (fun d => decide (d = ed)) with
    | none => simp [hfind]
    | some d =>
      have hd : d = ed := by simpa using List.find?_some hfind
      exact absurd hd (hc d (List.mem_of_find?_eq_some hfind))
  refine ⟨hmodel, ?_, ?_⟩
  · simp [hasEmbeddings, hmodel]
  · intro catalog q sims idxs k thr
    simp [searchByTextDispatch, hmodel]

/-- C5 witness: stored dimension 512, configured encoder dimension 384, and
an auto-detection list whose only loadable candidate also has dimension 384:
the embedding path stays disabled and `has_embeddings` is `false`. -/
theorem C5_witness :
    hasEmbeddings (initEmbeddingState (some 512) (some 384) [some 384, none]) =
      false :=
  (C5_dimension_mismatch_disables 512 384 [some 384, none] (by decide)
    (by decide)).2.1

/-- C5 (counterexample): with stored dimension 512 and configured encoder
dimension 384 (a mismatch), the auto-detection loop finds a candidate model
of dimension 512 and re-enables the embedding path, so `has_embeddings` is
`true` — the claimed lifetime disabling on encoder mismatch does not hold. -/
theorem C5_counterexample :
    (384 : Nat) ≠ 512 ∧
    hasEmbeddings (initEmbeddingState (some 512) (some 384) [some 512]) = true := by
  exact ⟨by decide, by decide⟩

/-- C6 (amended): the fifth feature (`ctx_item_sim`) of the feature vector
used for model scoring (`featurize_combo_for_model`, recommend.py) is the
hard-coded constant `0.0` for every outfit and context — embeddings are
never consulted on that path.  Only `featurize_combo` (train.py) computes
the collaborator's cosine similarity between the mean of the item embeddings
and the context embedding, and it does so exactly when both are explicitly
provided; when either side is absent the feature is `0.0`. -/
theorem C6_ctx_item_sim_features (cos : List ℚ → List ℚ → ℚ)
    (combo : List Item) (styles : List Str) (temp : ℤ) (ce : List ℚ)
    (embs : List (List ℚ)) (ctx : Ctx) (ib : Option (List (List ℚ)))
    (eb : Option (List ℚ)) :
    (featurize_combo_for_model combo ctx).get? 4 = some 0 ∧
    (featurize_combo cos combo styles temp (some ce) (some embs)).get? 4 =
      some (cos (vecMean embs) ce) ∧
    (featurize_combo cos combo styles temp none ib).get? 4 = some 0 ∧
    (featurize_combo cos combo styles temp eb none).get? 4 = some 0 := by
  refine ⟨rfl, rfl, ?_, ?_⟩
  · cases ib <;> rfl
  · cases eb <;> rfl

/-- C6 (counterexample): for the one-item outfit `[itemA]` with item
embedding `[3, 4]` and context embedding `[3, 4]` both available, the cosine
similarity is `1`, but the fifth feature extracted by the scoring path is
`0` — so the fifth feature does not equal the cosine similarity whenever
both embeddings are available. -/
theorem C6_counterexample :
    (featurize_combo_for_model [itemA] {}).get? 4 = some 0 ∧
    cosineSim (vecMean [[3, 4]]) [3, 4] = 1 ∧ ((0 : ℚ) : ℝ) ≠ 1 := by
  refine ⟨rfl, ?_, by norm_num⟩
  have hm : vecMean [[3, 4]] = [3, 4] := by
    simp [vecMean]
  rw [hm]
  unfold cosineSim
  have hd : dotQ [3, 4] [3, 4] = 25 := by norm_num [dotQ]
  rw [hd]
  push_cast
  rw [Real.mul_self_sqrt (by norm_num : (0 : ℝ) ≤ 25)]
  norm_num

/-- C7: for every context and non-empty candidate list, the confidence score
returned by `_select_best_outfit` (retrieval score plus additive boosts of
0.2 per matched colour and 0.2 per matched style preference) never exceeds
`1.0`, because the code returns `min(best_score, 1.0)`. -/
theorem C7_selector_confidence_clamped (ctx : UIContext)
    (candidates : List (Item × ℚ)) (h : candidates ≠ []) :
    (select_best_outfit ctx candidates).2 ≤ 1 := by
  cases candidates with
  | nil => exact absurd rfl h
  | cons a l => exact min_le_right _ _

/-- C7 witness: a concrete singleton candidate list with base score 1/2. -/
theorem C7_witness : (select_best_outfit {} [({}, 1/2)]).2 ≤ 1 :=
  C7_selector_confidence_clamped {} [({}, 1/2)] (List.cons_ne_nil _ _)

/-- C8: when retrieval yields an empty candidate list, the pipeline of
`OutfitRecommender.recommend` returns exactly the fallback output of
`_create_fallback_output`, whose confidence score is `0.0`; the model is a
total function, so no exception is raised. -/
theorem C8_empty_retrieval_fallback (reasonOf : UIContext → Item → Str)
    (vtonOf : UIContext → Item → Str × Str) (notesOf : UIContext → Item → Str)
    (ctx : UIContext) (now : Str) :
    recommend_pipeline reasonOf vtonOf notesOf ctx [] now =
      create_fallback_output now ∧
    (recommend_pipeline reasonOf vtonOf notesOf ctx [] now).confidence_score =
      0 :=
  ⟨rfl, rfl⟩

/-- An empty keyword list scores no item, so the hit list is empty. -/
theorem keywordHits_nil_keywords (catalog : List Item) :
    keywordHits catalog [] = [] := by
  unfold keywordHits
  refine List.filterMap_eq_nil_iff.mpr fun it _ => ?_
  simp [matchCount]

/-- An empty keyword list scores no item in the V2 loader either. -/
theorem keywordHitsV2_nil_keywords (catalog : List ItemV2) :
    keywordHitsV2 catalog [] = [] := by
  unfold keywordHitsV2
  refine List.filterMap_eq_nil_iff.mpr fun it _ => ?_
  simp [matchCount]

/-- C9: searching for the empty string through the keyword fallback path
returns the empty list for every catalog, in both `CatalogLoader` and
`CatalogLoaderV2` (zero query tokens leave every raw match count at zero). -/
theorem C9_empty_query_empty_result (catalog : List Item)
    (catalogV2 : List ItemV2) (k : Nat) :
    searchByKeyword catalog (strOf "") k = [] ∧
    searchByKeywordV2 catalogV2 (strOf "") k = [] := by
  constructor
  · unfold searchByKeyword
    rw [show tokenize (strOf "") = [] from rfl, keywordHits_nil_keywords]
    simp [sortDescBy]
  · unfold searchByKeywordV2
    rw [show tokenize (strOf "") = [] from rfl, keywordHitsV2_nil_keywords]
    simp [sortDescBy]

/-- C10: the keyword fallback of both loaders is total and its score
normalization never divides by zero: every returned pair's score is
`min(m / token_count, 1)` for a strictly positive raw match count `m`, which
forces the query token count to be strictly positive (a match needs at least
one token); and when the token list is empty both results are empty. -/
theorem C10_keyword_score_division_guard (catalog : List Item)
    (catalogV2 : List ItemV2) (q : Str) (k : Nat) :
    (∀ p ∈ searchByKeyword catalog q k, ∃ m : Nat,
      0 < m ∧ 0 < (tokenize q).length ∧
      p.2 = min ((m : ℚ) / ((tokenize q).length : ℚ)) 1) ∧
    (∀ p ∈ searchByKeywordV2 catalogV2 q k, ∃ m : Nat,
      0 < m ∧ 0 < (tokenize q).length ∧
      p.2 = min ((m : ℚ) / ((tokenize q).length : ℚ)) 1) ∧
    (tokenize q = [] →
      searchByKeyword catalog q k = [] ∧
      searchByKeywordV2 catalogV2 q k = []) := by
  refine ⟨?_, ?_, ?_⟩
  · intro p hp
    have hp1 : p ∈ sortDescBy (fun p : Item × ℚ => p.2)
        (keywordHits catalog (tokenize q)) :=
      (List.take_sublist _ _).subset hp
    have hp2 : p ∈ keywordHits catalog (tokenize q) :=
      (mem_sortDescBy _ _ _).mp hp1
    obtain ⟨it, _, hsome⟩ := List.mem_filterMap.mp hp2
    split at hsome
    case isTrue hpos =>
      cases hsome
      refine ⟨matchCount (tokenize q) (textToSearch it), hpos, ?_, rfl⟩
      have hne : tokenize q ≠ [] := by
        intro h0
        rw [h0] at hpos
        simp [matchCount] at hpos
      exact List.length_pos.mpr hne
    case isFalse => cases hsome
  · intro p hp
    have hp1 : p ∈ sortDescBy (fun p : ItemV2 × ℚ => p.2)
        (keywordHitsV2 catalogV2 (tokenize q)) :=
      (List.take_sublist _ _).subset hp
    have hp2 : p ∈ keywordHitsV2 catalogV2 (tokenize q) :=
      (mem_sortDescBy _ _ _).mp hp1
    obtain ⟨it, _, hsome⟩ := List.mem_filterMap.mp hp2
    split at hsome
    case isTrue hpos =>
      cases hsome
      have hne : tokenize q ≠ [] := by
        intro h0
        rw [h0] at hpos
        simp [matchCount] at hpos
      refine ⟨matchCount (tokenize q) (textToSearchV2 it), hpos,
        List.length_pos.mpr hne, ?_⟩
      exact if_neg hne
    case isFalse => cases hsome
  · intro h0
    constructor
    · unfold searchByKeyword
      rw [h0, keywordHits_nil_keywords]
      simp [sortDescBy]
    · unfold searchByKeywordV2
      rw [h0, keywordHitsV2_nil_keywords]
      simp [sortDescBy]

/-- Item whose title matches the query used in the C10 witness. -/
def itemRed : Item := { item_id := strOf "r", title := strOf "red" }

/-- V2 catalog entry whose description matches the C10 witness query. -/
def itemRedV2 : ItemV2 := { complete_description := strOf "red" }

/-- Keyword search evaluated on a concrete one-item catalog. -/
theorem searchByKeyword_red_eval :
    searchByKeyword [itemRed] (strOf "red") 5 = [(itemRed, 1)] := by
  have h1 : tokenize (strOf "red") = [strOf "red"] := by decide
  have h2 : matchCount [strOf "red"] (textToSearch itemRed) = 1 := by decide
  unfold searchByKeyword keywordHits
  rw [h1]
  simp only [List.filterMap_cons, List.filterMap_nil, h2]
  norm_num [sortDescBy, insertDescBy]

/-- V2 keyword search evaluated on a concrete one-item catalog. -/
theorem searchByKeywordV2_red_eval :
    searchByKeywordV2 [itemRedV2] (strOf "red") 5 = [(itemRedV2, 1)] := by
  have h1 : tokenize (strOf "red") = [strOf "red"] := by decide
  have h2 : matchCount [strOf "red"] (textToSearchV2 itemRedV2) = 1 := by decide
  unfold searchByKeywordV2 keywordHitsV2
  rw [h1]
  simp only [List.filterMap_cons, List.filterMap_nil, h2]
  norm_num [sortDescBy, insertDescBy]

/-- C10 witness: the returned score `1` of the query `red` on concrete
one-item catalogs of both loaders matches the guarded normalization with raw
count 1 and token count 1. -/
theorem C10_witness :
    (∃ m : Nat, 0 < m ∧ 0 < (tokenize (strOf "red")).length ∧
      ((itemRed, (1 : ℚ)) : Item × ℚ).2 =
        min ((m : ℚ) / ((tokenize (strOf "red")).length : ℚ)) 1) ∧
    (∃ m : Nat, 0 < m ∧ 0 < (tokenize (strOf "red")).length ∧
      ((itemRedV2, (1 : ℚ)) : ItemV2 × ℚ).2 =
        min ((m : ℚ) / ((tokenize (strOf "red")).length : ℚ)) 1) :=
  ⟨(C10_keyword_score_division_guard [itemRed] [itemRedV2] (strOf "red") 5).1
     (itemRed, 1)
     (by rw [searchByKeyword_red_eval]; exact List.mem_singleton_self _),
   (C10_keyword_score_division_guard [itemRed] [itemRedV2] (strOf "red") 5).2.1
     (itemRedV2, 1)
     (by rw [searchByKeywordV2_red_eval]; exact List.mem_singleton_self _)⟩
